import Mathlib

/-!
A verification development for the SQL safety guardrail layer of the
SQL_Agent_Chatbot repository (backend/app/guardrails/sql_policy.py,
backend/app/guardrails/validators.py, backend/app/agent/schema.py and the
LangGraph workflow in backend/app/agent/workflow.py).

The Python code manipulates strings and sqlglot expression trees.  The
embedding below mirrors it shallowly:

* Python string operations (strip, rstrip, upper, lower, `in`, int(...),
  split) are re-implemented over `List Char` so that every definition is
  executable and kernel-reducible.
* sqlglot expression trees are modelled by the inductive type `SqlExpr`,
  covering exactly the node categories the guardrail code inspects
  (Select, Subquery, Limit, Table, Column, Star, qualified star, Literal,
  Parameter, Placeholder, Anonymous, Neg, Insert/Update/Delete/Drop/Create).
* sqlglot's `Expression.walk()` / `find` are breadth-first traversals with
  the node itself first; they are embedded as fuel-indexed BFS functions
  (the fuel, one unit per visited node, is supplied as the tree's node
  count, which is exactly enough).
* The parser `sqlglot.parse_one(sql, read='postgres')` is third-party code
  outside the repository; universally quantified theorems abstract over it
  (`parse` argument), and concrete runs use a finite reference table
  (`parseOne`) recording the sqlglot parse trees of the statements used in
  this development.
-/

/-! ## Python string primitives over `List Char` -/

/-- Characters Python's `str.strip()` removes. -/
def isPySpace (c : Char) : Bool :=
  c = ' ' || c = '\t' || c = '\n' || c = '\r' || c = '\x0b' || c = '\x0c'

/-- Python `s.strip()`. -/
def pyStrip (s : String) : String :=
  String.mk (((s.data.dropWhile isPySpace).reverse.dropWhile isPySpace).reverse)

/-- Python `s.rstrip(';')`. -/
def pyRstripSemis (s : String) : String :=
  String.mk ((s.data.reverse.dropWhile (fun c => c = ';')).reverse)

/-- `sql.strip().rstrip(';')`, the cleaning step shared by the guardrail
entry points. -/
def pyCleanSql (s : String) : String := pyRstripSemis (pyStrip s)

/-- Python `';' in s` (single-character membership). -/
def pyHasSemicolon (s : String) : Bool := s.data.any (fun c => c = ';')

/-- ASCII upper-casing of one character (Python `str.upper` on the ASCII
text the guardrails handle). -/
def upperChar (c : Char) : Char :=
  if 'a' ≤ c ∧ c ≤ 'z' then Char.ofNat (c.toNat - 32) else c

/-- ASCII lower-casing of one character. -/
def lowerChar (c : Char) : Char :=
  if 'A' ≤ c ∧ c ≤ 'Z' then Char.ofNat (c.toNat + 32) else c

/-- Python `s.upper()`. -/
def pyUpper (s : String) : String := String.mk (s.data.map upperChar)

/-- Python `s.lower()`. -/
def pyLower (s : String) : String := String.mk (s.data.map lowerChar)

/-- Is `n` a prefix of `h`? -/
def listHasPre : List Char → List Char → Bool
  | _, [] => true
  | [], _ :: _ => false
  | c :: cs, d :: ds => c = d && listHasPre cs ds

/-- Does `n` occur as a contiguous sublist of `h`? -/
def listHasSub : List Char → List Char → Bool
  | [], n => listHasPre [] n
  | h@(_ :: t), n => listHasPre h n || listHasSub t n

/-- Python `needle in hay` for strings. -/
def pyInStr (needle hay : String) : Bool := listHasSub hay.data needle.data

/-- Value of a decimal digit. -/
def digitVal (c : Char) : Option Nat :=
  if '0' ≤ c ∧ c ≤ '9' then some (c.toNat - 48) else none

def digitsValAux : Nat → List Char → Option Nat
  | acc, [] => some acc
  | acc, c :: cs =>
    match digitVal c with
    | some d => digitsValAux (acc * 10 + d) cs
    | none => none

/-- Value of a non-empty all-digit numeral. -/
def digitsVal (l : List Char) : Option Nat :=
  match l with
  | [] => none
  | _ => digitsValAux 0 l

/-- Python `int(s)` on the numeral texts sqlglot literals carry (digits with
an optional leading minus); `none` models the `ValueError` on other text. -/
def pyIntOfString (s : String) : Option Int :=
  match s.data with
  | '-' :: rest => (digitsVal rest).map (fun n => -(n : Int))
  | l => (digitsVal l).map (fun n => (n : Int))

/-! ## The sqlglot expression tree, as the guardrails see it

`tbl name tblAlias` stands for `exp.Table` (the alias empty when there is
none); `column name qualifier` for `exp.Column` over an identifier;
`columnStar qualifier` for the qualified wildcard `alias.*`, which sqlglot
parses as `Column(this=Star(), table=Identifier(alias))`; `star` for the bare
`exp.Star` projection; `literal text isString` for `exp.Literal`;
`anonymousFun` for `exp.Anonymous`.  Identifier leaves and wrapper nodes
(`From`, `TableAlias`, ...) that no guardrail check inspects are folded into
the string fields of their parents. -/
inductive SqlExpr where
  | select (projections : List SqlExpr) (fromTables : List SqlExpr) (limit : Option SqlExpr)
  | subquery (inner : SqlExpr) (tblAlias : String)
  | limitNode (expression : SqlExpr)
  | tbl (name : String) (tblAlias : String)
  | column (name : String) (qualifier : String)
  | columnStar (qualifier : String)
  | star
  | literal (text : String) (isString : Bool)
  | param (name : String)
  | placeholder
  | anonymousFun (name : String) (args : List SqlExpr)
  | neg (arg : SqlExpr)
  | insertStmt (children : List SqlExpr)
  | updateStmt (children : List SqlExpr)
  | deleteStmt (children : List SqlExpr)
  | dropStmt (children : List SqlExpr)
  | createStmt (children : List SqlExpr)

/-- The child subtrees of a node, in sqlglot's argument order (for a
SELECT: projection list, then FROM sources, then the LIMIT clause). -/
def SqlExpr.children : SqlExpr → List SqlExpr
  | .select pr fr lim => pr ++ fr ++ lim.toList
  | .subquery inner _ => [inner]
  | .limitNode e => [e]
  | .tbl _ _ => []
  | .column _ _ => []
  | .columnStar _ => []
  | .star => []
  | .literal _ _ => []
  | .param _ => []
  | .placeholder => []
  | .anonymousFun _ args => args
  | .neg e => [e]
  | .insertStmt cs => cs
  | .updateStmt cs => cs
  | .deleteStmt cs => cs
  | .dropStmt cs => cs
  | .createStmt cs => cs

mutual

/-- Number of nodes in a tree (used as exact BFS fuel). -/
def SqlExpr.nodeCount : SqlExpr → Nat
  | .select pr fr none => 1 + SqlExpr.nodeCountList pr + SqlExpr.nodeCountList fr
  | .select pr fr (some l) =>
    1 + SqlExpr.nodeCountList pr + SqlExpr.nodeCountList fr + SqlExpr.nodeCount l
  | .subquery inner _ => 1 + SqlExpr.nodeCount inner
  | .limitNode e => 1 + SqlExpr.nodeCount e
  | .tbl _ _ => 1
  | .column _ _ => 1
  | .columnStar _ => 1
  | .star => 1
  | .literal _ _ => 1
  | .param _ => 1
  | .placeholder => 1
  | .anonymousFun _ args => 1 + SqlExpr.nodeCountList args
  | .neg e => 1 + SqlExpr.nodeCount e
  | .insertStmt cs => 1 + SqlExpr.nodeCountList cs
  | .updateStmt cs => 1 + SqlExpr.nodeCountList cs
  | .deleteStmt cs => 1 + SqlExpr.nodeCountList cs
  | .dropStmt cs => 1 + SqlExpr.nodeCountList cs
  | .createStmt cs => 1 + SqlExpr.nodeCountList cs

def SqlExpr.nodeCountList : List SqlExpr → Nat
  | [] => 0
  | x :: xs => SqlExpr.nodeCount x + SqlExpr.nodeCountList xs

end

/-- `isinstance(node, exp.Limit)`. -/
def SqlExpr.isLimit : SqlExpr → Bool
  | .limitNode _ => true
  | _ => false

/-- `isinstance(node, exp.Select)`. -/
def SqlExpr.isSelect : SqlExpr → Bool
  | .select _ _ _ => true
  | _ => false

/-- `isinstance(node, exp.Star)` — the bare star only; a qualified star is a
`Column` wrapping a `Star` and is not an instance of `exp.Star`. -/
def SqlExpr.isStar : SqlExpr → Bool
  | .star => true
  | _ => false

/-- `isinstance(node, exp.Table)`. -/
def SqlExpr.isTable : SqlExpr → Bool
  | .tbl _ _ => true
  | _ => false

/-- `select.expressions`: the projection list of a SELECT node. -/
def SqlExpr.projections : SqlExpr → List SqlExpr
  | .select pr _ _ => pr
  | _ => []

/-- The `expression` argument of a Limit node. -/
def SqlExpr.limitExpr : SqlExpr → SqlExpr
  | .limitNode e => e
  | _ => .placeholder

/-- `table.name` of a Table node. -/
def SqlExpr.tableName : SqlExpr → String
  | .tbl n _ => n
  | _ => ""

/-! ## Breadth-first traversal (`Expression.walk()` and `Expression.find`)

sqlglot walks breadth-first with the node itself first.  One unit of fuel is
consumed per visited node, so a tree's `nodeCount` is exactly enough fuel. -/

def bfsWalkF : Nat → List SqlExpr → List SqlExpr
  | 0, _ => []
  | _ + 1, [] => []
  | f + 1, x :: rest => x :: bfsWalkF f (rest ++ x.children)

/-- `list(parsed.walk())`: every node of the tree in BFS order. -/
def SqlExpr.walk (t : SqlExpr) : List SqlExpr := bfsWalkF t.nodeCount [t]

/-- The queue entries for the children of a node at path `p`, the i-th child
extending the path by its index. -/
def childEntries (p : List Nat) : Nat → List SqlExpr → List (SqlExpr × List Nat)
  | _, [] => []
  | i, c :: cs => (c, p ++ [i]) :: childEntries p (i + 1) cs

def bfsFindLimitF : Nat → List (SqlExpr × List Nat) → Option (SqlExpr × List Nat)
  | 0, _ => none
  | _ + 1, [] => none
  | f + 1, (x, p) :: rest =>
    if x.isLimit then some (x, p)
    else bfsFindLimitF f (rest ++ childEntries p 0 x.children)

/-- `parsed.find(exp.Limit)`: the first Limit node in BFS order, together
with the path (list of child indices) at which it sits — the path records
where sqlglot's in-place mutation would land, so that the mutation can be
expressed functionally. -/
def findLimitWithPath (t : SqlExpr) : Option (SqlExpr × List Nat) :=
  bfsFindLimitF t.nodeCount [(t, [])]

/-- The `i`-th child of a node (used to walk a path). -/
def SqlExpr.childAt (t : SqlExpr) (i : Nat) : SqlExpr :=
  (t.children.drop i).headD .placeholder

/-- Replace the `i`-th child of a node. -/
def SqlExpr.setChild : SqlExpr → Nat → SqlExpr → SqlExpr
  | .select pr fr lim, i, new =>
    if i < pr.length then .select (pr.set i new) fr lim
    else if i < pr.length + fr.length then .select pr (fr.set (i - pr.length) new) lim
    else .select pr fr (some new)
  | .subquery inner a, i, new => if i = 0 then .subquery new a else .subquery inner a
  | .limitNode e, i, new => if i = 0 then .limitNode new else .limitNode e
  | .anonymousFun n args, i, new => .anonymousFun n (args.set i new)
  | .neg e, i, new => if i = 0 then .neg new else .neg e
  | .insertStmt cs, i, new => .insertStmt (cs.set i new)
  | .updateStmt cs, i, new => .updateStmt (cs.set i new)
  | .deleteStmt cs, i, new => .deleteStmt (cs.set i new)
  | .dropStmt cs, i, new => .dropStmt (cs.set i new)
  | .createStmt cs, i, new => .createStmt (cs.set i new)
  | t, _, _ => t

/-- Replace the node at `path` by `new` (the functional form of sqlglot's
in-place `node.set`). -/
def replaceAt : SqlExpr → List Nat → SqlExpr → SqlExpr
  | _, [], new => new
  | t, i :: rest, new => t.setChild i (replaceAt (t.childAt i) rest new)

/-- `parsed.limit(n)`: attach a top-level LIMIT clause with an integer
literal.  sqlglot's builder sets the `limit` argument of a SELECT,
overwriting any present one.  (For a non-SELECT top level the repository
never reaches this call on a claim-relevant path; the node is returned
unchanged.) -/
def SqlExpr.limitBuilder (t : SqlExpr) (n : Int) : SqlExpr :=
  match t with
  | .select pr fr _ => .select pr fr (some (.limitNode (.literal (toString n) false)))
  | t => t

/-! ## app/core/config.py — the limit configuration -/

/-- `Settings.default_limit` in the reference configuration. -/
def default_limit : Int := 200

/-- `Settings.max_limit` in the reference configuration. -/
def max_limit : Int := 200

/-! ## app/agent/schema.py — allowlist and blocklist -/

/-- `ALLOWED_SCHEMA`: table name → allowed column names. -/
def ALLOWED_SCHEMA : List (String × List String) :=
  [ ("product", ["id", "name", "category", "unit_price", "created_at"]),
    ("territory", ["id", "name", "region", "country", "created_at"]),
    ("hcp", ["id", "first_name", "last_name", "specialty", "territory_id", "email", "created_at"]),
    ("sales", ["id", "product_id", "territory_id", "hcp_id", "quantity", "revenue", "sale_date", "created_at"]) ]

/-- `BLOCKED_TABLES`. -/
def BLOCKED_TABLES : List String := ["audit_log"]

/-- `[t.lower() for t in ALLOWED_SCHEMA.keys()]`. -/
def allowedTableKeys : List String := ALLOWED_SCHEMA.map (fun p => pyLower p.1)

/-! ## app/guardrails/sql_policy.py -/

/-- The distinct `SQLPolicyError` raise sites of sql_policy.py, each carrying
the data interpolated into its message. -/
inductive SQLPolicyError where
  | multipleStatements
  | invalidSyntax (msg : String)
  | onlySelectAllowed
  | forbiddenOperation (typeName : String)
  | forbiddenFunction (fname : String)
  | limitNotInteger
  | limitNegative
  | limitParameterized
  | limitExpression

/-- `str(e)` for each raise site, exactly as sql_policy.py writes it. -/
def SQLPolicyError.message : SQLPolicyError → String
  | .multipleStatements =>
    "Multiple SQL statements are not allowed. Please submit one query at a time."
  | .invalidSyntax m => "Invalid SQL syntax: " ++ m
  | .onlySelectAllowed =>
    "Only SELECT statements are allowed. DDL and DML operations (INSERT, UPDATE, DELETE, DROP, etc.) are prohibited."
  | .forbiddenOperation ty =>
    "Forbidden operation detected: " ++ ty ++ ". Only SELECT queries are allowed."
  | .forbiddenFunction f => "Forbidden function: " ++ f
  | .limitNotInteger =>
    "LIMIT must be an integer value. Non-integer LIMIT values are not allowed."
  | .limitNegative => "LIMIT cannot be negative."
  | .limitParameterized =>
    "Parameterized LIMIT values are not allowed. Please specify a concrete integer LIMIT."
  | .limitExpression =>
    "LIMIT must be a simple integer value. Expressions and variables are not allowed."

/-- Errors raised with the forbidden-statement-type message family (the
top-level shape rejection and the DDL/DML walk rejection). -/
def SQLPolicyError.isForbiddenStatementType : SQLPolicyError → Bool
  | .onlySelectAllowed => true
  | .forbiddenOperation _ => true
  | _ => false

/-- Errors of the invalid-limit taxonomy kind. -/
def SQLPolicyError.isInvalidLimit : SQLPolicyError → Bool
  | .limitNotInteger => true
  | .limitNegative => true
  | .limitParameterized => true
  | .limitExpression => true
  | _ => false

/-- `type(node).__name__` for the forbidden expression types of
`_check_for_dangerous_operations` (`exp.Insert, exp.Update, exp.Delete,
exp.Drop, exp.Create`); `none` for every other node. -/
def forbiddenTypeName : SqlExpr → Option String
  | .insertStmt _ => some "Insert"
  | .updateStmt _ => some "Update"
  | .deleteStmt _ => some "Delete"
  | .dropStmt _ => some "Drop"
  | .createStmt _ => some "Create"
  | _ => none

/-- Is the node one of the forbidden DDL/DML types? -/
def SqlExpr.isForbidden (t : SqlExpr) : Bool := (forbiddenTypeName t).isSome

/-- The dangerous-function denylist of `_check_for_dangerous_operations`. -/
def dangerous_functions : List String :=
  ["PG_SLEEP", "SLEEP", "BENCHMARK", "LOAD_FILE", "INTO OUTFILE", "INTO DUMPFILE", "EXEC", "EXECUTE"]

/-- What the per-node body of `_check_for_dangerous_operations`'s walk loop
raises at a node, if anything: a forbidden DDL/DML type first, else a
denylisted `exp.Anonymous` function name (upper-cased). -/
def nodeDanger (n : SqlExpr) : Option SQLPolicyError :=
  match forbiddenTypeName n with
  | some ty => some (.forbiddenOperation ty)
  | none =>
    match n with
    | .anonymousFun nm _ =>
      if pyUpper nm ∈ dangerous_functions then some (.forbiddenFunction (pyUpper nm)) else none
    | _ => none

/-- `_check_for_dangerous_operations(parsed)`: walk the whole tree; the first
node that triggers raises. -/
def check_for_dangerous_operations (parsed : SqlExpr) : Except SQLPolicyError Unit :=
  match parsed.walk.findSome? nodeDanger with
  | some e => .error e
  | none => .ok ()

/-- `Literal.is_int` of sqlglot: a non-string literal whose text is an
integer numeral. -/
def litIsInt (text : String) (isString : Bool) : Bool :=
  !isString && (pyIntOfString text).isSome

/-- `int(limit_expr.this)` (defined on texts where `litIsInt` holds). -/
def litIntValue (text : String) : Int := (pyIntOfString text).getD 0

/-- `_enforce_limit(parsed, default_limit, max_limit)`.  `parsed.find(exp.Limit)`
is the BFS-first Limit node anywhere in the tree; absent, a default top-level
limit is attached; present, its expression must be a non-negative integer
literal and is capped at `maxLimit` (by mutating the found node in place,
here a functional replacement at its path). -/
def enforce_limit (parsed : SqlExpr) (defaultLimit maxLimit : Int) :
    Except SQLPolicyError SqlExpr :=
  match findLimitWithPath parsed with
  | none => .ok (parsed.limitBuilder defaultLimit)
  | some (l, path) =>
    match l.limitExpr with
    | .literal text isString =>
      if ¬ litIsInt text isString then .error .limitNotInteger
      else if litIntValue text < 0 then .error .limitNegative
      else if litIntValue text > maxLimit then
        .ok (replaceAt parsed path (.limitNode (.literal (toString maxLimit) false)))
      else .ok parsed
    | .param _ => .error .limitParameterized
    | .placeholder => .error .limitParameterized
    | _ => .error .limitExpression

/-- The post-parse body of `validate_sql`: the top-level shape check (SELECT,
or one subquery wrapper around a SELECT), the dangerous-operation walk, and
the limit enforcement, returning the (possibly rewritten) tree. -/
def validateParsed (parsed : SqlExpr) : Except SQLPolicyError SqlExpr :=
  match parsed with
  | .select _ _ _ =>
    match check_for_dangerous_operations parsed with
    | .error e => .error e
    | .ok _ => enforce_limit parsed default_limit max_limit
  | .subquery inner _ =>
    if inner.isSelect then
      match check_for_dangerous_operations parsed with
      | .error e => .error e
      | .ok _ => enforce_limit parsed default_limit max_limit
    else .error .onlySelectAllowed
  | _ => .error .onlySelectAllowed

/-! ## Re-serialization (`parsed.sql(dialect='postgres')`)

Rendering of the claim-relevant statement fragment, matching sqlglot's
postgres output (single spaces, `AS` before aliases, literal limits). -/

def joinSep (sep : String) : List String → String
  | [] => ""
  | [x] => x
  | x :: xs => x ++ sep ++ joinSep sep xs

mutual

def exprSql : SqlExpr → String
  | .select pr fr none =>
    "SELECT " ++ joinSep ", " (exprSqlList pr) ++
      (match fr with
       | [] => ""
       | _ => " FROM " ++ joinSep ", " (exprSqlList fr))
  | .select pr fr (some (.limitNode e)) =>
    "SELECT " ++ joinSep ", " (exprSqlList pr) ++
      (match fr with
       | [] => ""
       | _ => " FROM " ++ joinSep ", " (exprSqlList fr)) ++
      " LIMIT " ++ exprSql e
  | .select pr fr (some l) =>
    "SELECT " ++ joinSep ", " (exprSqlList pr) ++
      (match fr with
       | [] => ""
       | _ => " FROM " ++ joinSep ", " (exprSqlList fr)) ++
      " LIMIT " ++ exprSql l
  | .subquery inner a => "(" ++ exprSql inner ++ ")" ++ (if a = "" then "" else " AS " ++ a)
  | .limitNode e => "LIMIT " ++ exprSql e
  | .tbl n a => n ++ (if a = "" then "" else " AS " ++ a)
  | .column n q => (if q = "" then "" else q ++ ".") ++ n
  | .columnStar q => q ++ ".*"
  | .star => "*"
  | .literal s isStr => if isStr then "'" ++ s ++ "'" else s
  | .param n => "@" ++ n
  | .placeholder => "?"
  | .anonymousFun n args => n ++ "(" ++ joinSep ", " (exprSqlList args) ++ ")"
  | .neg e => "-" ++ exprSql e
  | .insertStmt _ => "INSERT"
  | .updateStmt _ => "UPDATE"
  | .deleteStmt _ => "DELETE"
  | .dropStmt _ => "DROP"
  | .createStmt _ => "CREATE"

def exprSqlList : List SqlExpr → List String
  | [] => []
  | x :: xs => exprSql x :: exprSqlList xs

end

/-- `validate_sql(sql)` of sql_policy.py, abstracted over the third-party
parser: strip whitespace and trailing semicolons, reject any remaining
semicolon as multi-statement, parse, run the shape / dangerous-operation /
limit checks, and re-serialize. -/
def validate_sql (parse : String → Except String SqlExpr) (sql : String) :
    Except SQLPolicyError String :=
  let cleaned := pyCleanSql sql
  if pyHasSemicolon cleaned then .error .multipleStatements
  else
    match parse cleaned with
    | .error m => .error (.invalidSyntax m)
    | .ok parsed =>
      match validateParsed parsed with
      | .error e => .error e
      | .ok t => .ok (exprSql t)

/-! ## app/guardrails/validators.py -/

/-- `validate_select_only(sql)`: clean, reject inner semicolons, parse,
require a top-level SELECT (no subquery unwrapping here), and reject
DDL/DML nodes anywhere in the tree.  Errors are the exception messages. -/
def validate_select_only (parse : String → Except String SqlExpr) (sql : String) :
    Except String Unit :=
  let sqlClean := pyCleanSql sql
  if pyHasSemicolon sqlClean then .error "Multiple SQL statements are not allowed"
  else
    match parse sqlClean with
    | .error m => .error ("Invalid SQL syntax: " ++ m)
    | .ok parsed =>
      if parsed.isSelect then
        match parsed.walk.findSome?
            (fun n => (forbiddenTypeName n).map (fun ty => "Forbidden operation: " ++ ty)) with
        | some e => .error e
        | none => .ok ()
      else .error "Only SELECT statements are allowed. INSERT, UPDATE, DELETE, and DDL are prohibited."

/-- `validate_no_select_star(sql)`: for every SELECT node in the tree, reject
a projection that is a bare `exp.Star` instance (a qualified `alias.*` is a
Column wrapping a Star and is not such an instance).  Parse failures are
deferred to the other validators. -/
def validate_no_select_star (parse : String → Except String SqlExpr) (sql : String) :
    Except String Unit :=
  match parse (pyCleanSql sql) with
  | .error _ => .ok ()
  | .ok parsed =>
    if parsed.walk.any (fun s => s.isSelect && s.projections.any SqlExpr.isStar) then
      .error "SELECT * is not allowed. Please specify the columns you need."
    else .ok ()

/-- The error, if any, that `validate_allowlist`'s loop appends for one
Table node. -/
def tableRefError (t : SqlExpr) : Option String :=
  let table_name := pyLower t.tableName
  if table_name ∈ BLOCKED_TABLES then
    some ("Access to table '" ++ table_name ++ "' is not permitted")
  else if table_name ∉ allowedTableKeys then
    some ("Unknown table: '" ++ table_name ++ "'")
  else none

/-- `validate_allowlist(sql)`: the list of table-reference violations
(blocked table, or table outside the allowlist), over all Table nodes of
the tree (`parsed.find_all(exp.Table)` in BFS order). -/
def validate_allowlist (parse : String → Except String SqlExpr) (sql : String) :
    List String :=
  match parse (pyCleanSql sql) with
  | .error m => ["SQL parse error: " ++ m]
  | .ok parsed => (parsed.walk.filter SqlExpr.isTable).filterMap tableRefError

/-- The denylist of `validate_no_dangerous_patterns` (validators.py's copy,
without EXEC/EXECUTE). -/
def validatorDangerousFunctions : List String :=
  ["PG_SLEEP", "SLEEP", "BENCHMARK", "LOAD_FILE", "INTO OUTFILE", "INTO DUMPFILE"]

/-- `validate_no_dangerous_patterns(sql)`: substring scan of the upper-cased
text for the denylisted function names.  (The source's comment-injection and
UNION paragraphs only `pass` and can raise nothing; they are omitted.) -/
def validate_no_dangerous_patterns (sql : String) : Except String Unit :=
  let sqlUpper := pyUpper sql
  match validatorDangerousFunctions.find? (fun f => pyInStr f sqlUpper) with
  | some f => .error ("Dangerous function detected: " ++ f)
  | none => .ok ()

/-- Collect an exception message as a one-element error list. -/
def exceptErrList : Except String Unit → List String
  | .error e => [e]
  | .ok _ => []

/-- `validate_sql_complete(sql)`: run all four validators, collecting
messages, and return `(is_valid, errors)`. -/
def validate_sql_complete (parse : String → Except String SqlExpr) (sql : String) :
    Bool × List String :=
  let errors :=
    exceptErrList (validate_select_only parse sql)
      ++ exceptErrList (validate_no_select_star parse sql)
      ++ exceptErrList (validate_no_dangerous_patterns sql)
      ++ validate_allowlist parse sql
  (errors.isEmpty, errors)

/-- `check_dump_request`'s pattern list. -/
def dump_patterns : List String :=
  ["dump everything", "dump all", "export all", "give me everything", "all the data",
   "entire database", "all records", "all rows", "download everything", "extract all"]

/-- `check_dump_request(question)`. -/
def check_dump_request (question : String) : Bool × Option String :=
  let questionLower := pyLower question
  if dump_patterns.any (fun p => pyInStr p questionLower) then
    (true, some ("I can't export entire datasets. Please ask a specific question about the data, "
      ++ "such as 'What are the top 10 products by revenue?' or 'Show sales by territory'."))
  else (false, none)

/-- `check_sensitive_request`'s (substring, reason) pairs. -/
def sensitive_patterns : List (String × String) :=
  [ ("password", "I cannot provide password information."),
    ("credential", "I cannot provide credential information."),
    ("api key", "I cannot provide API key information."),
    ("secret", "I cannot provide secret information."),
    ("audit_log", "Access to audit logs is restricted.") ]

/-- `check_sensitive_request(question)`. -/
def check_sensitive_request (question : String) : Bool × Option String :=
  let questionLower := pyLower question
  match sensitive_patterns.find? (fun pr => pyInStr pr.1 questionLower) with
  | some pr => (true, some pr.2)
  | none => (false, none)

/-! ## The reference parser table -/

/-- Modelled from the spec: the SQL parser is third-party code
(`sqlglot.parse_one(sql, read='postgres')`), not part of the repository;
per spec section 4.1 it "parses the text into a statement tree using the
target SQL dialect".  This reference table records the sqlglot postgres
parse trees of exactly the concrete statements used in this development;
every other input reports a parse failure.  Universally quantified theorems
abstract over the parser instead of using this table. -/
def parseOne (sql : String) : Except String SqlExpr :=
  if sql = "SELECT 1" then
    .ok (.select [.literal "1" false] [] none)
  else if sql = "SELECT id FROM audit_log" then
    .ok (.select [.column "id" ""] [.tbl "audit_log" ""] none)
  else if sql = "SELECT * FROM product" then
    .ok (.select [.star] [.tbl "product" ""] none)
  else if sql = "SELECT p.* FROM product p" then
    .ok (.select [.columnStar "p"] [.tbl "product" "p"] none)
  else if sql = "SELECT name FROM product" then
    .ok (.select [.column "name" ""] [.tbl "product" ""] none)
  else if sql = "SELECT name FROM product LIMIT 1000" then
    .ok (.select [.column "name" ""] [.tbl "product" ""] (some (.limitNode (.literal "1000" false))))
  else if sql = "SELECT name FROM product LIMIT 200" then
    .ok (.select [.column "name" ""] [.tbl "product" ""] (some (.limitNode (.literal "200" false))))
  else if sql = "SELECT name FROM (SELECT name FROM product LIMIT 5) AS t" then
    .ok (.select [.column "name" ""]
      [.subquery (.select [.column "name" ""] [.tbl "product" ""]
        (some (.limitNode (.literal "5" false)))) "t"] none)
  else if sql = "DROP TABLE product" then
    .ok (.dropStmt [.tbl "product" ""])
  else .error "unsupported statement"

/-! ## app/agent/workflow.py — the LangGraph agent workflow

The graph of `build_workflow()` is embedded as a step function over an
explicit state.  Of `AgentState`, the fields that drive routing or that the
claims observe are modelled (`sql_candidate`, `validation_errors`,
`attempts_remaining`, `execution_error`, the two flags, the question texts);
fields that only feed the user-facing answer (columns, rows, assumptions,
answer, chart spec, timing) are omitted.  `executedSql`, `genCount` and
`fixCount` are specification instrumentation: the trace of SQL strings passed
to `execute_query`, and how often the generate and fix-retry nodes ran.

External collaborators are oracles: `gen` abstracts the LLM
(`generate_sql`/`fix_sql`, indexed by how many generations happened so far; a
`.error` is an `LLMError` or an unavailable LLM), `runQuery` abstracts
`execute_query` (`some msg` is an `SQLExecutionError`; result rows do not
influence routing). -/

inductive WFNode where
  | preprocess
  | scopePolicy
  | clarify
  | schemaGround
  | generateSql
  | validateNode
  | fixRetry
  | executeNode
  | finalizeNode
  | done
deriving DecidableEq

structure AgentConfig where
  user_question : String
  normalized_question : String
  ambiguity_flag : Bool
  refusal_flag : Bool
  refusal_reason : Option String
  sql_candidate : Option String
  validation_errors : List String
  attempts_remaining : Int
  execution_error : Option String
  node : WFNode
  executedSql : List String
  genCount : Nat
  fixCount : Nat

/-- Python word split (`s.split()` with no separator). -/
def pySplitAux : List Char → List Char → List (List Char)
  | [], cur => if cur.isEmpty then [] else [cur.reverse]
  | c :: cs, cur =>
    if isPySpace c then
      (if cur.isEmpty then pySplitAux cs [] else cur.reverse :: pySplitAux cs [])
    else pySplitAux cs (c :: cur)

def pySplit (s : String) : List String := (pySplitAux s.data []).map String.mk

/-- Python `s.endswith((...))` over one-character suffixes. -/
def pyEndsWithAny (s : String) (cs : List Char) : Bool :=
  match s.data.reverse with
  | [] => false
  | c :: _ => cs.contains c

/-- `preprocess_node`: strip, collapse whitespace, ensure a closing
punctuation mark. -/
def preprocess_node (c : AgentConfig) : AgentConfig :=
  let question := pyStrip c.user_question
  let normalized := joinSep " " (pySplit question)
  let normalized :=
    if pyEndsWithAny normalized ['?', '.', '!'] then normalized else normalized ++ "?"
  { c with normalized_question := normalized }

/-- `scope_policy_node`'s vague-question pattern list. -/
def vague_patterns : List String := ["help", "something", "anything", "whatever", "stuff"]

/-- `scope_policy_node`: dump-request refusal, sensitive-request refusal,
then the two ambiguity heuristics.  (The canned follow-up question texts
only feed the answer and are not modelled.) -/
def scope_policy_node (c : AgentConfig) : AgentConfig :=
  let question := c.normalized_question
  match check_dump_request question with
  | (true, reason) => { c with refusal_flag := true, refusal_reason := reason }
  | (false, _) =>
    match check_sensitive_request question with
    | (true, reason) => { c with refusal_flag := true, refusal_reason := reason }
    | (false, _) =>
      let wordCount := (pySplit question).length
      if wordCount < 3 then { c with ambiguity_flag := true }
      else if vague_patterns.any (fun p => pyInStr p (pyLower question)) && wordCount < 6 then
        { c with ambiguity_flag := true }
      else c

/-- Python truthiness of `sql_candidate` (`if not sql`). -/
def candidateTruthy : Option String → Bool
  | none => false
  | some s => !s.isEmpty

/-- `generate_sql_node`, over the LLM oracle: a successful generation resets
`validation_errors`; a failure leaves no candidate and one error message. -/
def generate_sql_node (gen : Nat → Except String String) (c : AgentConfig) : AgentConfig :=
  match gen c.genCount with
  | .ok sql =>
    { c with sql_candidate := some sql, validation_errors := [], genCount := c.genCount + 1 }
  | .error m =>
    { c with sql_candidate := none, validation_errors := [m], genCount := c.genCount + 1 }

/-- `validate_sql_node`: `validate_sql_complete` first; if it passes, apply
`validate_sql` and replace the candidate by the validated string. -/
def validate_sql_node (parse : String → Except String SqlExpr) (c : AgentConfig) : AgentConfig :=
  if ¬ candidateTruthy c.sql_candidate then
    { c with validation_errors :=
        if c.validation_errors.isEmpty then ["No SQL generated"] else c.validation_errors }
  else
    let sql := c.sql_candidate.getD ""
    let res := validate_sql_complete parse sql
    if ¬ res.1 then { c with validation_errors := res.2 }
    else
      match validate_sql parse sql with
      | .ok validated => { c with sql_candidate := some validated, validation_errors := [] }
      | .error e => { c with validation_errors := [e.message] }

/-- `fix_retry_node`: decrement the shared retry budget. -/
def fix_retry_node (c : AgentConfig) : AgentConfig :=
  { c with attempts_remaining := c.attempts_remaining - 1, fixCount := c.fixCount + 1 }

/-- `execute_query_node`, over the execution oracle; the SQL string passed to
`execute_query` is appended to the `executedSql` trace.  An execution error
is also appended to `validation_errors`, as in the source. -/
def execute_query_node (runQuery : String → Option String) (c : AgentConfig) : AgentConfig :=
  if ¬ candidateTruthy c.sql_candidate then
    { c with execution_error := some "No SQL to execute" }
  else
    let sql := c.sql_candidate.getD ""
    let c := { c with executedSql := c.executedSql ++ [sql] }
    match runQuery sql with
    | none => { c with execution_error := none }
    | some err =>
      { c with execution_error := some err, validation_errors := c.validation_errors ++ [err] }

/-- `should_retry`: retry while there are validation or execution errors and
budget remains. -/
def should_retry (c : AgentConfig) : Bool :=
  (!c.validation_errors.isEmpty || c.execution_error.isSome) && c.attempts_remaining > 0

/-- One transition of the compiled graph of `build_workflow()`: run the
current node's body, then follow its (conditional) edge. -/
def wfStep (parse : String → Except String SqlExpr) (gen : Nat → Except String String)
    (runQuery : String → Option String) (c : AgentConfig) : AgentConfig :=
  match c.node with
  | .preprocess => { preprocess_node c with node := .scopePolicy }
  | .scopePolicy =>
    let c' := scope_policy_node c
    { c' with node :=
        if c'.ambiguity_flag then .clarify
        else if c'.refusal_flag then .finalizeNode
        else .schemaGround }
  | .clarify => { c with node := .finalizeNode }
  | .schemaGround => { c with node := .generateSql }
  | .generateSql => { generate_sql_node gen c with node := .validateNode }
  | .validateNode =>
    let c' := validate_sql_node parse c
    { c' with node := if should_retry c' then .fixRetry else .executeNode }
  | .fixRetry => { fix_retry_node c with node := .generateSql }
  | .executeNode =>
    let c' := execute_query_node runQuery c
    { c' with node := if should_retry c' then .fixRetry else .finalizeNode }
  | .finalizeNode => { c with node := .done }
  | .done => c

/-- Iterate `wfStep` for `fuel` transitions (`done` is a fixpoint). -/
def wfRun (parse : String → Except String SqlExpr) (gen : Nat → Except String String)
    (runQuery : String → Option String) : Nat → AgentConfig → AgentConfig
  | 0, c => c
  | f + 1, c => wfRun parse gen runQuery f (wfStep parse gen runQuery c)

/-- The initial state of `run_agent` (`attempts_remaining = 3`). -/
def initialConfig (q : String) : AgentConfig :=
  { user_question := q
    normalized_question := ""
    ambiguity_flag := false
    refusal_flag := false
    refusal_reason := none
    sql_candidate := none
    validation_errors := []
    attempts_remaining := 3
    execution_error := none
    node := .preprocess
    executedSql := []
    genCount := 0
    fixCount := 0 }

/-- `run_agent(session_id, question)`: invoke the compiled workflow from the
initial state.  64 transitions are more than any path of the graph can take
(proved below: every run reaches `done`). -/
def run_agent (parse : String → Except String SqlExpr) (gen : Nat → Except String String)
    (runQuery : String → Option String) (q : String) : AgentConfig :=
  wfRun parse gen runQuery 64 (initialConfig q)

/-- An LLM that persistently proposes SQL against the blocked table. -/
def genBlockedTable : Nat → Except String String :=
  fun _ => .ok "SELECT id FROM audit_log"

set_option maxRecDepth 40000

/-! ## Auxiliary specification definitions -/

/-- `a` occurs as a node of the tree `t` (reflexive-transitive closure of the
child relation). -/
inductive SqlExpr.InTree : SqlExpr → SqlExpr → Prop
  | refl (t : SqlExpr) : SqlExpr.InTree t t
  | child {t c a : SqlExpr} : c ∈ t.children → SqlExpr.InTree c a → SqlExpr.InTree t a

/-- An `exp.Anonymous` call with a denylisted name (exactly what the second
branch of `_check_for_dangerous_operations`'s loop body rejects). -/
def SqlExpr.isDangerousAnon : SqlExpr → Bool
  | .anonymousFun nm _ => pyUpper nm ∈ dangerous_functions
  | _ => false

/-- The limit expressions the claims call invalid: a non-integer or negative
literal, a parameter or placeholder, or any non-literal expression. -/
def badLimitExpr : SqlExpr → Bool
  | .literal text isString => !(litIsInt text isString) || (litIntValue text < 0)
  | _ => true

/-- The `limit` argument of a top-level SELECT node. -/
def topLevelLimit : SqlExpr → Option SqlExpr
  | .select _ _ lim => lim
  | _ => none

/-- The top-level shapes `validate_sql` accepts: a SELECT, or one subquery
wrapper around a SELECT. -/
def shapeOk (t : SqlExpr) : Prop :=
  t.isSelect = true ∨ ∃ inner a, t = .subquery inner a ∧ inner.isSelect = true

/-- Rank of a workflow node along the acyclic part of the graph (used in the
termination measure). -/
def nodeRank : WFNode → Nat
  | .preprocess => 9
  | .scopePolicy => 8
  | .clarify => 7
  | .schemaGround => 6
  | .generateSql => 5
  | .validateNode => 4
  | .executeNode => 3
  | .finalizeNode => 2
  | .fixRetry => 1
  | .done => 0

/-- Termination measure of the workflow: ten per remaining retry, plus the
node's rank (only the `fixRetry → generateSql` edge increases the rank, and
it spends one retry). -/
def wfMeasure (c : AgentConfig) : Nat :=
  10 * c.attempts_remaining.toNat + nodeRank c.node

/-- The counter relation at each node: before the first generation both
instrumentation counters are zero; at `generateSql` a generation is about to
happen; between a generation and its retry decision the generation count
leads the fix count by one; terminal nodes allow both (a refused or
ambiguous request never generates). -/
def genCountInv (c : AgentConfig) : Prop :=
  match c.node with
  | .preprocess | .scopePolicy | .clarify | .schemaGround =>
    c.genCount = 0 ∧ c.fixCount = 0
  | .generateSql => c.genCount = c.fixCount
  | .validateNode | .fixRetry | .executeNode => c.genCount = c.fixCount + 1
  | .finalizeNode | .done =>
    c.genCount = c.fixCount + 1 ∨ (c.genCount = 0 ∧ c.fixCount = 0)

/-- The workflow invariant: the retry budget mirrors the fix count, the fix
count never exceeds the initial budget, `fixRetry` is only ever entered with
budget remaining, and the counter relation holds. -/
def wfInv (c : AgentConfig) : Prop :=
  c.attempts_remaining = 3 - (c.fixCount : Int) ∧
  c.fixCount ≤ 3 ∧
  (c.node = .fixRetry → c.attempts_remaining > 0) ∧
  genCountInv c

/-! ## Lemmas: node counting -/

theorem nodeCountList_append (a b : List SqlExpr) :
    SqlExpr.nodeCountList (a ++ b) = SqlExpr.nodeCountList a + SqlExpr.nodeCountList b := by
  induction a with
  | nil => simp [SqlExpr.nodeCountList]
  | cons x xs ih => simp [SqlExpr.nodeCountList, ih]; omega

theorem nodeCount_eq_children (t : SqlExpr) :
    t.nodeCount = 1 + SqlExpr.nodeCountList t.children := by
  cases t with
  | select pr fr lim =>
    cases lim <;>
      simp [SqlExpr.nodeCount, SqlExpr.children, nodeCountList_append, SqlExpr.nodeCountList] <;>
      omega
  | _ =>
    simp [SqlExpr.nodeCount, SqlExpr.children, SqlExpr.nodeCountList]

theorem nodeCount_pos (t : SqlExpr) : 1 ≤ t.nodeCount := by
  rw [nodeCount_eq_children]; omega

theorem nodeCountList_eq_zero {l : List SqlExpr} (h : SqlExpr.nodeCountList l = 0) : l = [] := by
  cases l with
  | nil => rfl
  | cons x xs =>
    have := nodeCount_pos x
    simp [SqlExpr.nodeCountList] at h
    omega

theorem nodeCountList_ge_length (l : List SqlExpr) : l.length ≤ SqlExpr.nodeCountList l := by
  induction l with
  | nil => simp [SqlExpr.nodeCountList]
  | cons x xs ih =>
    have := nodeCount_pos x
    simp [SqlExpr.nodeCountList]
    omega

/-! ## Lemmas: BFS walk membership -/

theorem mem_bfsWalkF :
    ∀ (f : Nat) (q : List SqlExpr), SqlExpr.nodeCountList q ≤ f →
      ∀ a, (a ∈ bfsWalkF f q ↔ ∃ r ∈ q, SqlExpr.InTree r a) := by
  intro f
  induction f with
  | zero =>
    intro q hq a
    have : q = [] := nodeCountList_eq_zero (Nat.le_zero.mp hq)
    subst this
    simp [bfsWalkF]
  | succ f ih =>
    intro q hq a
    cases q with
    | nil => simp [bfsWalkF]
    | cons x rest =>
      have hcx := nodeCount_eq_children x
      have hq' : SqlExpr.nodeCountList (rest ++ x.children) ≤ f := by
        rw [nodeCountList_append]
        simp [SqlExpr.nodeCountList] at hq
        omega
      rw [bfsWalkF]
      simp only [List.mem_cons]
      rw [ih _ hq']
      constructor
      · rintro (rfl | ⟨r, hr, hin⟩)
        · exact ⟨a, Or.inl rfl, SqlExpr.InTree.refl a⟩
        · rcases List.mem_append.mp hr with h | h
          · exact ⟨r, Or.inr h, hin⟩
          · exact ⟨x, Or.inl rfl, SqlExpr.InTree.child h hin⟩
      · rintro ⟨r, hr, hin⟩
        rcases hr with rfl | h
        · cases hin with
          | refl => exact Or.inl rfl
          | child hc hin' => exact Or.inr ⟨_, List.mem_append.mpr (Or.inr hc), hin'⟩
        · exact Or.inr ⟨r, List.mem_append.mpr (Or.inl h), hin⟩

theorem mem_walk_iff (t a : SqlExpr) : a ∈ t.walk ↔ SqlExpr.InTree t a := by
  rw [SqlExpr.walk, mem_bfsWalkF (t.nodeCount) [t] (by simp [SqlExpr.nodeCountList])]
  simp

/-! ## Lemmas: BFS limit search -/

theorem childEntries_length (p : List Nat) (cs : List SqlExpr) :
    ∀ i, (childEntries p i cs).length = cs.length := by
  induction cs with
  | nil => intro i; simp [childEntries]
  | cons c cs ih => intro i; simp [childEntries, ih]

theorem childEntries_fst {p : List Nat} {cs : List SqlExpr} :
    ∀ {i e}, e ∈ childEntries p i cs → e.1 ∈ cs := by
  induction cs with
  | nil => intro i e h; simp [childEntries] at h
  | cons c cs ih =>
    intro i e h
    rw [childEntries] at h
    rcases List.mem_cons.mp h with rfl | h
    · exact List.mem_cons_self ..
    · exact List.mem_cons_of_mem _ (ih h)

theorem childEntries_append (p : List Nat) (a b : List SqlExpr) :
    ∀ i, childEntries p i (a ++ b) = childEntries p i a ++ childEntries p (i + a.length) b := by
  induction a with
  | nil => intro i; simp [childEntries]
  | cons c cs ih =>
    intro i
    rw [List.cons_append, childEntries, childEntries, ih (i + 1)]
    have he : i + 1 + cs.length = i + (c :: cs).length := by simp; omega
    rw [he]
    rfl

theorem bfsFindLimitF_skip :
    ∀ (q1 : List (SqlExpr × List Nat)) (f : Nat) (q2 : List (SqlExpr × List Nat))
      (l : SqlExpr) (p : List Nat),
      (∀ e ∈ q1, e.1.isLimit = false) → l.isLimit = true → q1.length < f →
      bfsFindLimitF f (q1 ++ (l, p) :: q2) = some (l, p) := by
  intro q1
  induction q1 with
  | nil =>
    intro f q2 l p h1 hl hf
    cases f with
    | zero => omega
    | succ f => simp [bfsFindLimitF, hl]
  | cons e q1' ih =>
    intro f q2 l p h1 hl hf
    obtain ⟨x, px⟩ := e
    cases f with
    | zero => simp at hf
    | succ f =>
      have hx : x.isLimit = false := h1 (x, px) (List.mem_cons_self ..)
      rw [List.cons_append, bfsFindLimitF, hx]
      simp only [List.append_assoc, List.cons_append]
      exact ih f _ l p (fun e he => h1 e (List.mem_cons_of_mem _ he)) hl
        (by simp at hf ⊢; omega)

/-! ## Lemmas: substring containment -/

theorem string_data_append (a b : String) : (a ++ b).data = a.data ++ b.data := by
  cases a; cases b; rfl

theorem listHasPre_append_self (n rest : List Char) : listHasPre (n ++ rest) n = true := by
  induction n with
  | nil => simp [listHasPre]
  | cons c cs ih => simp [listHasPre, ih]

theorem listHasSub_of_self_append (n suf : List Char) : listHasSub (n ++ suf) n = true := by
  cases n with
  | nil => cases suf <;> simp [listHasSub, listHasPre]
  | cons c cs =>
    rw [List.cons_append, listHasSub]
    have : listHasPre (c :: (cs ++ suf)) (c :: cs) = true := by
      rw [← List.cons_append]
      exact listHasPre_append_self _ _
    simp [this]

theorem listHasSub_append_left (pre h n : List Char) (hh : listHasSub h n = true) :
    listHasSub (pre ++ h) n = true := by
  induction pre with
  | nil => simpa using hh
  | cons c cs ih =>
    rw [List.cons_append, listHasSub]
    simp [ih]

theorem pyInStr_mid (pre mid suf : String) : pyInStr mid (pre ++ mid ++ suf) = true := by
  rw [pyInStr, string_data_append, string_data_append]
  rw [List.append_assoc]
  exact listHasSub_append_left _ _ _ (listHasSub_of_self_append _ _)

/-! ## Lemmas: findSome? -/

theorem findSome?_eq_none_iff {α β : Type} (f : α → Option β) (l : List α) :
    l.findSome? f = none ↔ ∀ x ∈ l, f x = none := by
  induction l with
  | nil => simp
  | cons x xs ih =>
    cases hx : f x <;> simp [List.findSome?_cons, hx, ih]

/-! ## Lemmas: the dangerous-operation scan -/

theorem nodeDanger_some_forbidden (n : SqlExpr) (h : n.isForbidden = true) :
    ∃ ty, nodeDanger n = some (.forbiddenOperation ty) := by
  cases n <;> first
    | exact ⟨_, rfl⟩
    | simp [SqlExpr.isForbidden, forbiddenTypeName] at h

theorem nodeDanger_forbiddenType (n : SqlExpr) (ha : n.isDangerousAnon = false) {e : SQLPolicyError}
    (he : nodeDanger n = some e) : e.isForbiddenStatementType = true := by
  cases n with
  | anonymousFun nm args =>
    simp [SqlExpr.isDangerousAnon] at ha
    simp [nodeDanger, forbiddenTypeName, ha] at he
  | insertStmt cs =>
    simp [nodeDanger, forbiddenTypeName] at he
    simp [← he, SQLPolicyError.isForbiddenStatementType]
  | updateStmt cs =>
    simp [nodeDanger, forbiddenTypeName] at he
    simp [← he, SQLPolicyError.isForbiddenStatementType]
  | deleteStmt cs =>
    simp [nodeDanger, forbiddenTypeName] at he
    simp [← he, SQLPolicyError.isForbiddenStatementType]
  | dropStmt cs =>
    simp [nodeDanger, forbiddenTypeName] at he
    simp [← he, SQLPolicyError.isForbiddenStatementType]
  | createStmt cs =>
    simp [nodeDanger, forbiddenTypeName] at he
    simp [← he, SQLPolicyError.isForbiddenStatementType]
  | _ => simp [nodeDanger, forbiddenTypeName] at he

theorem findSome?_danger (l : List SqlExpr) (hforb : ∃ x ∈ l, x.isForbidden = true)
    (hanon : ∀ x ∈ l, x.isDangerousAnon = false) :
    ∃ e, l.findSome? nodeDanger = some e ∧ e.isForbiddenStatementType = true := by
  induction l with
  | nil => simp at hforb
  | cons y l' ih =>
    cases hy : nodeDanger y with
    | some e =>
      refine ⟨e, ?_, nodeDanger_forbiddenType y (hanon y (by simp)) hy⟩
      simp [List.findSome?_cons, hy]
    | none =>
      have hyf : y.isForbidden = false := by
        by_contra hc
        have ht : y.isForbidden = true := by revert hc; cases y.isForbidden <;> simp
        obtain ⟨ty, hty⟩ := nodeDanger_some_forbidden y ht
        rw [hty] at hy
        cases hy
      obtain ⟨x, hx, hxf⟩ := hforb
      rcases List.mem_cons.mp hx with rfl | hx'
      · rw [hxf] at hyf; cases hyf
      · have := ih ⟨x, hx', hxf⟩ (fun z hz => hanon z (List.mem_cons_of_mem _ hz))
        simpa [List.findSome?_cons, hy] using this

theorem check_danger_fails (t : SqlExpr) (hforb : ∃ x ∈ t.walk, x.isForbidden = true)
    (hanon : ∀ x ∈ t.walk, x.isDangerousAnon = false) :
    ∃ e, check_for_dangerous_operations t = .error e ∧ e.isForbiddenStatementType = true := by
  obtain ⟨e, he, ht⟩ := findSome?_danger _ hforb hanon
  exact ⟨e, by rw [check_for_dangerous_operations, he], ht⟩

theorem check_danger_ok_iff (t : SqlExpr) :
    check_for_dangerous_operations t = .ok () ↔ ∀ x ∈ t.walk, nodeDanger x = none := by
  constructor
  · intro hok
    cases h : t.walk.findSome? nodeDanger with
    | none => exact (findSome?_eq_none_iff _ _).mp h
    | some e => rw [check_for_dangerous_operations, h] at hok; cases hok
  · intro hall
    rw [check_for_dangerous_operations, (findSome?_eq_none_iff _ _).mpr hall]

/-! ## Lemmas: shape and limit enforcement -/

theorem isSelect_iff (t : SqlExpr) : t.isSelect = true ↔ ∃ pr fr lim, t = .select pr fr lim := by
  cases t <;> simp [SqlExpr.isSelect]

theorem validateParsed_eq_enforce (t : SqlExpr) (hs : shapeOk t)
    (hd : check_for_dangerous_operations t = .ok ()) :
    validateParsed t = enforce_limit t default_limit max_limit := by
  rcases hs with hsel | ⟨inner, a, rfl, hinner⟩
  · obtain ⟨pr, fr, lim, rfl⟩ := (isSelect_iff t).mp hsel
    simp [validateParsed, hd]
  · simp [validateParsed, hinner, hd]

theorem findLimit_top (pr fr : List SqlExpr) (lim : SqlExpr) (hlim : lim.isLimit = true)
    (hnl : ∀ x ∈ pr ++ fr, x.isLimit = false) :
    findLimitWithPath (.select pr fr (some lim)) = some (lim, [pr.length + fr.length]) := by
  rw [findLimitWithPath]
  have hM : (SqlExpr.select pr fr (some lim)).nodeCount
      = (SqlExpr.nodeCountList pr + SqlExpr.nodeCountList fr + lim.nodeCount) + 1 := by
    simp [SqlExpr.nodeCount]
    omega
  rw [hM, bfsFindLimitF]
  have hroot : (SqlExpr.select pr fr (some lim)).isLimit = false := rfl
  rw [hroot]
  simp only [Bool.false_eq_true, if_false, List.nil_append]
  have hch : (SqlExpr.select pr fr (some lim)).children = (pr ++ fr) ++ [lim] := by
    simp [SqlExpr.children]
  rw [hch, childEntries_append, childEntries, childEntries]
  have hidx : ([] : List Nat) ++ [0 + (pr ++ fr).length] = [pr.length + fr.length] := by simp
  rw [hidx]
  apply bfsFindLimitF_skip
  · intro e he
    exact hnl e.1 (childEntries_fst he)
  · exact hlim
  · rw [childEntries_length]
    have h1 := nodeCountList_ge_length pr
    have h2 := nodeCountList_ge_length fr
    have h3 := nodeCount_pos lim
    simp
    omega

theorem replaceAt_select_limit (pr fr : List SqlExpr) (lim : Option SqlExpr) (new : SqlExpr) :
    replaceAt (.select pr fr lim) [pr.length + fr.length] new = .select pr fr (some new) := by
  rw [replaceAt, replaceAt, SqlExpr.setChild]
  rw [if_neg (by omega), if_neg (by omega)]

theorem enforce_limit_none (t : SqlExpr) (h : findLimitWithPath t = none) (d m : Int) :
    enforce_limit t d m = .ok (t.limitBuilder d) := by
  rw [enforce_limit, h]

theorem enforce_limit_some (t l : SqlExpr) (path : List Nat) (d m : Int)
    (hfind : findLimitWithPath t = some (l, path)) :
    enforce_limit t d m =
      (match l.limitExpr with
       | .literal text isString =>
         if ¬ litIsInt text isString then .error .limitNotInteger
         else if litIntValue text < 0 then .error .limitNegative
         else if litIntValue text > m then
           .ok (replaceAt t path (.limitNode (.literal (toString m) false)))
         else .ok t
       | .param _ => .error .limitParameterized
       | .placeholder => .error .limitParameterized
       | _ => .error .limitExpression) := by
  rw [enforce_limit, hfind]

theorem enforce_limit_cap (pr fr : List SqlExpr) (text : String) (n : Int)
    (hint : pyIntOfString text = some n) (hn0 : 0 ≤ n) (hgt : n > max_limit)
    (hnl : ∀ x ∈ pr ++ fr, x.isLimit = false) :
    enforce_limit (.select pr fr (some (.limitNode (.literal text false)))) default_limit max_limit
      = .ok (.select pr fr (some (.limitNode (.literal "200" false)))) := by
  rw [enforce_limit, findLimit_top pr fr (.limitNode (.literal text false)) rfl hnl]
  have h1 : litIsInt text false = true := by simp [litIsInt, hint]
  have h2 : litIntValue text = n := by simp [litIntValue, hint]
  simp only [SqlExpr.limitExpr, h1, h2]
  rw [if_neg (by simp), if_neg (by omega), if_pos hgt, replaceAt_select_limit]
  rfl

theorem enforce_limit_keep (pr fr : List SqlExpr) (text : String) (n : Int)
    (hint : pyIntOfString text = some n) (hn0 : 0 ≤ n) (hle : ¬ n > max_limit)
    (hnl : ∀ x ∈ pr ++ fr, x.isLimit = false) :
    enforce_limit (.select pr fr (some (.limitNode (.literal text false)))) default_limit max_limit
      = .ok (.select pr fr (some (.limitNode (.literal text false)))) := by
  rw [enforce_limit, findLimit_top pr fr (.limitNode (.literal text false)) rfl hnl]
  have h1 : litIsInt text false = true := by simp [litIsInt, hint]
  have h2 : litIntValue text = n := by simp [litIntValue, hint]
  simp only [SqlExpr.limitExpr, h1, h2]
  rw [if_neg (by simp), if_neg (by omega), if_neg hle]

theorem inTree_select_limitLit {pr fr : List SqlExpr} {s : String} {b : Bool} {a : SqlExpr}
    (h : SqlExpr.InTree (.select pr fr (some (.limitNode (.literal s b)))) a) :
    a = .select pr fr (some (.limitNode (.literal s b)))
      ∨ (∃ c ∈ pr ++ fr, SqlExpr.InTree c a)
      ∨ a = .limitNode (.literal s b) ∨ a = .literal s b := by
  cases h with
  | refl => exact Or.inl rfl
  | @child _ c _ hc hin =>
    have hc' : c ∈ (pr ++ fr) ++ [SqlExpr.limitNode (.literal s b)] := by
      simpa [SqlExpr.children] using hc
    rcases List.mem_append.mp hc' with h1 | h2
    · exact Or.inr (Or.inl ⟨c, h1, hin⟩)
    · have hceq : c = .limitNode (.literal s b) := by simpa using h2
      subst hceq
      cases hin with
      | refl => exact Or.inr (Or.inr (Or.inl rfl))
      | @child _ c2 _ hc2 hin2 =>
        have hc2' : c2 = .literal s b := by simpa [SqlExpr.children] using hc2
        subst hc2'
        cases hin2 with
        | refl => exact Or.inr (Or.inr (Or.inr rfl))
        | @child _ c3 _ hc3 _ => simp [SqlExpr.children] at hc3

theorem check_danger_limitLit_transfer (pr fr : List SqlExpr) (s s' : String) (b b' : Bool)
    (hok : check_for_dangerous_operations
      (.select pr fr (some (.limitNode (.literal s b)))) = .ok ()) :
    check_for_dangerous_operations
      (.select pr fr (some (.limitNode (.literal s' b')))) = .ok () := by
  rw [check_danger_ok_iff] at hok ⊢
  intro x hx
  have hIn := (mem_walk_iff _ _).mp hx
  rcases inTree_select_limitLit hIn with rfl | ⟨c, hc, hcin⟩ | rfl | rfl
  · rfl
  · apply hok
    rw [mem_walk_iff]
    refine SqlExpr.InTree.child ?_ hcin
    show c ∈ (pr ++ fr) ++ [SqlExpr.limitNode (.literal s b)]
    exact List.mem_append.mpr (Or.inl hc)
  · rfl
  · rfl

/-! ## Claim theorems -/

/-- **C2** (amended): for all input SQL text that still contains a semicolon
after trimming surrounding whitespace and *all* trailing semicolons,
`validate_sql` fails with the multi-statement policy violation, for every
parser and regardless of what follows the semicolon. -/
theorem c2_amended_inner_semicolon_rejected (parse : String → Except String SqlExpr)
    (sql : String) (h : pyHasSemicolon (pyCleanSql sql) = true) :
    validate_sql parse sql = .error .multipleStatements := by
  simp [validate_sql, h]

/-- Witness for C2's amended theorem at `"SELECT 1; SELECT 2"`. -/
theorem c2_amended_inner_semicolon_rejected_witness :
    pyHasSemicolon (pyCleanSql "SELECT 1; SELECT 2") = true ∧
    validate_sql parseOne "SELECT 1; SELECT 2" = .error .multipleStatements :=
  ⟨rfl, c2_amended_inner_semicolon_rejected parseOne "SELECT 1; SELECT 2" rfl⟩

/-- **C2** (counterexample): `"SELECT 1;;"` has a semicolon before its final
non-whitespace character (the first of the two trailing semicolons), yet
`validate_sql` does not fail with multi-statement — `sql.strip().rstrip(';')`
strips the whole trailing run of semicolons, and the statement validates. -/
theorem c2_counterexample_double_semicolon :
    ("SELECT 1;;".data.dropLast.any (fun c => c = ';')) = true ∧
    validate_sql parseOne "SELECT 1;;" = .ok "SELECT 1 LIMIT 200" :=
  ⟨rfl, rfl⟩

/-- **C3**: the complete validation pipeline accepts the table-qualified
wildcard `SELECT p.* FROM product p` (sqlglot parses `p.*` as a Column
wrapping a Star, which `isinstance(expr, exp.Star)` misses), while the bare
wildcard `SELECT * FROM product` is rejected with the select-star message.
The repository's own test `test_reject_select_star_with_table` expects the
qualified form to be rejected as well. -/
theorem c3_qualified_star_passes_validation :
    validate_sql_complete parseOne "SELECT p.* FROM product p" = (true, []) ∧
    validate_sql_complete parseOne "SELECT * FROM product"
      = (false, ["SELECT * is not allowed. Please specify the columns you need."]) :=
  ⟨rfl, rfl⟩

/-- **C4** (counterexample): for a SELECT whose only LIMIT sits inside a
nested subquery, `validate_sql` returns the input unchanged and the returned
statement's top level has no LIMIT clause at all — `parsed.find(exp.Limit)`
finds the nested clause, so no default is attached. -/
theorem c4_counterexample_nested_limit :
    validate_sql parseOne "SELECT name FROM (SELECT name FROM product LIMIT 5) AS t"
      = .ok "SELECT name FROM (SELECT name FROM product LIMIT 5) AS t" ∧
    (parseOne "SELECT name FROM (SELECT name FROM product LIMIT 5) AS t").map topLevelLimit
      = .ok none :=
  ⟨rfl, rfl⟩

/-- **C4** (amended): for every SELECT statement with no Limit node anywhere
in its tree (and passing the dangerous-operation check), the validated tree
carries a top-level LIMIT clause whose literal is `default_limit` (200). -/
theorem c4_amended_default_limit_attached (t : SqlExpr) (hs : t.isSelect = true)
    (hd : check_for_dangerous_operations t = .ok ())
    (hnolimit : findLimitWithPath t = none) :
    validateParsed t = .ok (t.limitBuilder default_limit) ∧
    topLevelLimit (t.limitBuilder default_limit) = some (.limitNode (.literal "200" false)) := by
  constructor
  · rw [validateParsed_eq_enforce t (Or.inl hs) hd, enforce_limit, hnolimit]
  · obtain ⟨pr, fr, lim, rfl⟩ := (isSelect_iff t).mp hs
    rfl

/-- Witness for C4's amended theorem at the tree of `"SELECT name FROM product"`. -/
theorem c4_amended_default_limit_attached_witness :
    (SqlExpr.select [.column "name" ""] [.tbl "product" ""] none).isSelect = true ∧
    findLimitWithPath (SqlExpr.select [.column "name" ""] [.tbl "product" ""] none) = none ∧
    (validateParsed (SqlExpr.select [.column "name" ""] [.tbl "product" ""] none)
        = .ok ((SqlExpr.select [.column "name" ""] [.tbl "product" ""] none).limitBuilder
          default_limit) ∧
      topLevelLimit ((SqlExpr.select [.column "name" ""] [.tbl "product" ""] none).limitBuilder
          default_limit) = some (.limitNode (.literal "200" false))) :=
  ⟨rfl, rfl,
    c4_amended_default_limit_attached (SqlExpr.select [.column "name" ""] [.tbl "product" ""] none)
      rfl rfl rfl⟩

/-- **C8**: a SELECT whose top-level LIMIT is an integer literal `n` greater
than `max_limit` is never rejected: validation succeeds and the output's
limit literal is exactly `max_limit` (200); re-validating the capped tree
returns it unchanged (idempotence). -/
theorem c8_over_limit_capped_idempotent (pr fr : List SqlExpr) (text : String) (n : Int)
    (hint : pyIntOfString text = some n) (hgt : n > max_limit)
    (hnl : ∀ x ∈ pr ++ fr, x.isLimit = false)
    (hdanger : check_for_dangerous_operations
      (.select pr fr (some (.limitNode (.literal text false)))) = .ok ()) :
    validateParsed (.select pr fr (some (.limitNode (.literal text false))))
      = .ok (.select pr fr (some (.limitNode (.literal "200" false)))) ∧
    validateParsed (.select pr fr (some (.limitNode (.literal "200" false))))
      = .ok (.select pr fr (some (.limitNode (.literal "200" false)))) := by
  have hgt200 : n > 200 := hgt
  have hn0 : 0 ≤ n := by omega
  have hd' := check_danger_limitLit_transfer pr fr text "200" false false hdanger
  constructor
  · rw [validateParsed_eq_enforce
      (.select pr fr (some (.limitNode (.literal text false)))) (Or.inl rfl) hdanger]
    exact enforce_limit_cap pr fr text n hint hn0 hgt hnl
  · rw [validateParsed_eq_enforce
      (.select pr fr (some (.limitNode (.literal "200" false)))) (Or.inl rfl) hd']
    exact enforce_limit_keep pr fr "200" 200 rfl (by omega) (by decide) hnl

/-- Witness for C8 at the tree of `"SELECT name FROM product LIMIT 1000"`. -/
theorem c8_over_limit_capped_idempotent_witness :
    pyIntOfString "1000" = some 1000 ∧ (1000 : Int) > max_limit ∧
    (validateParsed (.select [.column "name" ""] [.tbl "product" ""]
        (some (.limitNode (.literal "1000" false))))
      = .ok (.select [.column "name" ""] [.tbl "product" ""]
        (some (.limitNode (.literal "200" false)))) ∧
    validateParsed (.select [.column "name" ""] [.tbl "product" ""]
        (some (.limitNode (.literal "200" false))))
      = .ok (.select [.column "name" ""] [.tbl "product" ""]
        (some (.limitNode (.literal "200" false))))) :=
  ⟨rfl, by decide,
    c8_over_limit_capped_idempotent [.column "name" ""] [.tbl "product" ""] "1000" 1000
      rfl (by decide) (by decide) rfl⟩

/-- **C9**: whenever the Limit clause found by `parsed.find(exp.Limit)` has an
expression that is a negative or non-integer literal, a parameter or
placeholder, or any non-literal expression, `validate_sql`'s post-parse body
fails with an invalid-limit violation (given that the shape and
dangerous-operation checks, which run first, pass). -/
theorem c9_invalid_limit_rejected (t l : SqlExpr) (path : List Nat)
    (hs : shapeOk t)
    (hd : check_for_dangerous_operations t = .ok ())
    (hfind : findLimitWithPath t = some (l, path))
    (hbad : badLimitExpr l.limitExpr = true) :
    ∃ e, validateParsed t = .error e ∧ e.isInvalidLimit = true := by
  have henf := enforce_limit_some t l path default_limit max_limit hfind
  rw [validateParsed_eq_enforce t hs hd, henf]
  cases hle : l.limitExpr
  case literal text isString =>
    rw [hle] at hbad
    by_cases hii : litIsInt text isString = true
    · have hneg : litIntValue text < 0 := by
        simp [badLimitExpr, hii] at hbad
        exact hbad
      exact ⟨.limitNegative, by simp [hii, hneg], rfl⟩
    · exact ⟨.limitNotInteger, by simp [hii], rfl⟩
  case param nm => exact ⟨.limitParameterized, rfl, rfl⟩
  case placeholder => exact ⟨.limitParameterized, rfl, rfl⟩
  all_goals exact ⟨.limitExpression, rfl, rfl⟩

/-- Witness for C9 at the tree of `"SELECT name FROM product LIMIT -1"`
(sqlglot parses the negative limit as a `Neg` node wrapping a literal, a
non-literal expression). -/
theorem c9_invalid_limit_rejected_witness :
    check_for_dangerous_operations (SqlExpr.select [.column "name" ""] [.tbl "product" ""]
        (some (.limitNode (.neg (.literal "1" false))))) = .ok () ∧
    findLimitWithPath (SqlExpr.select [.column "name" ""] [.tbl "product" ""]
        (some (.limitNode (.neg (.literal "1" false)))))
      = some (.limitNode (.neg (.literal "1" false)), [2]) ∧
    badLimitExpr (SqlExpr.limitNode (.neg (.literal "1" false))).limitExpr = true ∧
    (∃ e, validateParsed (SqlExpr.select [.column "name" ""] [.tbl "product" ""]
        (some (.limitNode (.neg (.literal "1" false))))) = .error e ∧
      e.isInvalidLimit = true) :=
  ⟨rfl, rfl, rfl,
    c9_invalid_limit_rejected
      (SqlExpr.select [.column "name" ""] [.tbl "product" ""]
        (some (.limitNode (.neg (.literal "1" false)))))
      (.limitNode (.neg (.literal "1" false))) [2] (Or.inl rfl) rfl rfl rfl⟩

/-- **C10**: `validate_sql` of sql_policy.py performs no allowlist or
select-star checks: `"SELECT id FROM audit_log"` (a blocked table) passes it
and the returned string still references `audit_log`; only
`validate_sql_complete` of validators.py reports the blocked table. -/
theorem c10_policy_orchestrator_skips_allowlist :
    validate_sql parseOne "SELECT id FROM audit_log"
      = .ok "SELECT id FROM audit_log LIMIT 200" ∧
    pyInStr "audit_log" "SELECT id FROM audit_log LIMIT 200" = true ∧
    (validate_sql_complete parseOne "SELECT id FROM audit_log").1 = false ∧
    (validate_sql_complete parseOne "SELECT id FROM audit_log").2
      = ["Access to table 'audit_log' is not permitted"] :=
  ⟨rfl, rfl, rfl, rfl⟩

theorem findSome?_isSome_of_mem {α β : Type} (f : α → Option β) (l : List α) (x : α)
    (hx : x ∈ l) {b : β} (hfx : f x = some b) : ∃ c, l.findSome? f = some c := by
  induction l with
  | nil => cases hx
  | cons y l' ih =>
    cases hy : f y with
    | some c => exact ⟨c, by simp [List.findSome?_cons, hy]⟩
    | none =>
      rcases List.mem_cons.mp hx with rfl | hx'
      · rw [hfx] at hy; cases hy
      · obtain ⟨c, hc⟩ := ih hx'
        exact ⟨c, by simp [List.findSome?_cons, hy, hc]⟩

/-- **C6**: for every parsed statement containing a DDL/DML node (Insert,
Update, Delete, Drop or Create) anywhere in its tree — nested subqueries
included — and free of denylisted function calls (which are checked by the
same loop and would take precedence), `validate_sql` fails with a
forbidden-statement-type violation, and `validate_select_only` of the
complete pipeline fails as well. -/
theorem c6_ddl_dml_rejected (parse : String → Except String SqlExpr) (sql : String) (t : SqlExpr)
    (hp : parse (pyCleanSql sql) = .ok t)
    (hsemi : pyHasSemicolon (pyCleanSql sql) = false)
    (hforb : ∃ x ∈ t.walk, x.isForbidden = true)
    (hanon : ∀ x ∈ t.walk, x.isDangerousAnon = false) :
    (∃ e, validate_sql parse sql = .error e ∧ e.isForbiddenStatementType = true) ∧
    (∃ msg, validate_select_only parse sql = .error msg) := by
  constructor
  · have hvp : ∃ e, validateParsed t = .error e ∧ e.isForbiddenStatementType = true := by
      cases t
      case select pr fr lim =>
        obtain ⟨e, he, ht⟩ := check_danger_fails _ hforb hanon
        exact ⟨e, by simp [validateParsed, he], ht⟩
      case subquery inner a =>
        by_cases hsel : inner.isSelect = true
        · obtain ⟨e, he, ht⟩ := check_danger_fails _ hforb hanon
          exact ⟨e, by simp [validateParsed, hsel, he], ht⟩
        · have hsel' : inner.isSelect = false := by simpa using hsel
          exact ⟨.onlySelectAllowed, by simp [validateParsed, hsel'], rfl⟩
      all_goals exact ⟨.onlySelectAllowed, rfl, rfl⟩
    obtain ⟨e, he, ht⟩ := hvp
    refine ⟨e, ?_, ht⟩
    simp [validate_sql, hsemi, hp, he]
  · by_cases hts : t.isSelect = true
    · obtain ⟨x, hx, hxf⟩ := hforb
      obtain ⟨ty, hty⟩ := Option.isSome_iff_exists.mp (by simpa [SqlExpr.isForbidden] using hxf)
      have hfx : (forbiddenTypeName x).map (fun ty => "Forbidden operation: " ++ ty)
          = some ("Forbidden operation: " ++ ty) := by simp [hty]
      obtain ⟨m, hm⟩ := findSome?_isSome_of_mem
        (fun n => (forbiddenTypeName n).map (fun ty => "Forbidden operation: " ++ ty))
        t.walk x hx hfx
      exact ⟨m, by simp [validate_select_only, hsemi, hp, hts, hm]⟩
    · have hts' : t.isSelect = false := by simpa using hts
      exact ⟨"Only SELECT statements are allowed. INSERT, UPDATE, DELETE, and DDL are prohibited.",
        by simp [validate_select_only, hsemi, hp, hts']⟩

/-- Witness for C6 at `"DROP TABLE product"`. -/
theorem c6_ddl_dml_rejected_witness :
    parseOne (pyCleanSql "DROP TABLE product") = .ok (.dropStmt [.tbl "product" ""]) ∧
    (∃ x ∈ (SqlExpr.dropStmt [.tbl "product" ""]).walk, x.isForbidden = true) ∧
    ((∃ e, validate_sql parseOne "DROP TABLE product" = .error e ∧
        e.isForbiddenStatementType = true) ∧
      (∃ msg, validate_select_only parseOne "DROP TABLE product" = .error msg)) :=
  ⟨rfl, by decide,
    c6_ddl_dml_rejected parseOne "DROP TABLE product" (.dropStmt [.tbl "product" ""])
      rfl rfl (by decide) (by decide)⟩

/-- **C7**: for every Table node of a parsed statement, `validate_allowlist`
reports a violation when the (lower-cased) table name is blocked, and, when
the name is outside the allowlist, reports a violation whose message contains
the failing table's name. -/
theorem c7_table_allowlist_violations (parse : String → Except String SqlExpr) (sql : String)
    (t : SqlExpr) (name a : String)
    (hp : parse (pyCleanSql sql) = .ok t)
    (hmem : SqlExpr.tbl name a ∈ t.walk) :
    (pyLower name ∈ BLOCKED_TABLES →
      ("Access to table '" ++ pyLower name ++ "' is not permitted")
        ∈ validate_allowlist parse sql) ∧
    (pyLower name ∉ allowedTableKeys →
      ∃ err ∈ validate_allowlist parse sql, pyInStr (pyLower name) err = true) := by
  have hval : validate_allowlist parse sql
      = (t.walk.filter SqlExpr.isTable).filterMap tableRefError := by
    simp [validate_allowlist, hp]
  have hmemf : SqlExpr.tbl name a ∈ t.walk.filter SqlExpr.isTable :=
    List.mem_filter.mpr ⟨hmem, rfl⟩
  constructor
  · intro hblock
    rw [hval]
    exact List.mem_filterMap.mpr
      ⟨.tbl name a, hmemf, by simp [tableRefError, SqlExpr.tableName, hblock]⟩
  · intro hnotallow
    rw [hval]
    by_cases hblock : pyLower name ∈ BLOCKED_TABLES
    · refine ⟨"Access to table '" ++ pyLower name ++ "' is not permitted",
        List.mem_filterMap.mpr ⟨.tbl name a, hmemf,
          by simp [tableRefError, SqlExpr.tableName, hblock]⟩, ?_⟩
      exact pyInStr_mid "Access to table '" (pyLower name) "' is not permitted"
    · refine ⟨"Unknown table: '" ++ pyLower name ++ "'",
        List.mem_filterMap.mpr ⟨.tbl name a, hmemf,
          by simp [tableRefError, SqlExpr.tableName, hblock, hnotallow]⟩, ?_⟩
      exact pyInStr_mid "Unknown table: '" (pyLower name) "'"

/-- Witness for C7 at `"SELECT id FROM audit_log"` (blocked and outside the
allowlist). -/
theorem c7_table_allowlist_violations_witness :
    parseOne (pyCleanSql "SELECT id FROM audit_log")
      = .ok (.select [.column "id" ""] [.tbl "audit_log" ""] none) ∧
    pyLower "audit_log" ∈ BLOCKED_TABLES ∧
    pyLower "audit_log" ∉ allowedTableKeys ∧
    ("Access to table '" ++ pyLower "audit_log" ++ "' is not permitted")
      ∈ validate_allowlist parseOne "SELECT id FROM audit_log" ∧
    (∃ err ∈ validate_allowlist parseOne "SELECT id FROM audit_log",
      pyInStr (pyLower "audit_log") err = true) := by
  have h := c7_table_allowlist_violations parseOne "SELECT id FROM audit_log"
    (.select [.column "id" ""] [.tbl "audit_log" ""] none) "audit_log" "" rfl
    (List.Mem.tail _ (List.Mem.tail _ (List.Mem.head _)))
  exact ⟨rfl, by decide, by decide, h.1 (by decide), h.2 (by decide)⟩

/-! ## Lemmas: the workflow's retry loop -/

theorem preprocess_node_fields (c : AgentConfig) :
    (preprocess_node c).attempts_remaining = c.attempts_remaining ∧
    (preprocess_node c).genCount = c.genCount ∧
    (preprocess_node c).fixCount = c.fixCount :=
  ⟨rfl, rfl, rfl⟩

theorem scope_policy_node_fields (c : AgentConfig) :
    (scope_policy_node c).attempts_remaining = c.attempts_remaining ∧
    (scope_policy_node c).genCount = c.genCount ∧
    (scope_policy_node c).fixCount = c.fixCount := by
  simp only [scope_policy_node]
  repeat' split
  all_goals exact ⟨rfl, rfl, rfl⟩

theorem generate_sql_node_fields (gen : Nat → Except String String) (c : AgentConfig) :
    (generate_sql_node gen c).attempts_remaining = c.attempts_remaining ∧
    (generate_sql_node gen c).genCount = c.genCount + 1 ∧
    (generate_sql_node gen c).fixCount = c.fixCount := by
  simp only [generate_sql_node]
  repeat' split
  all_goals exact ⟨rfl, rfl, rfl⟩

theorem validate_sql_node_fields (parse : String → Except String SqlExpr) (c : AgentConfig) :
    (validate_sql_node parse c).attempts_remaining = c.attempts_remaining ∧
    (validate_sql_node parse c).genCount = c.genCount ∧
    (validate_sql_node parse c).fixCount = c.fixCount := by
  simp only [validate_sql_node]
  repeat' split
  all_goals exact ⟨rfl, rfl, rfl⟩

theorem execute_query_node_fields (runQuery : String → Option String) (c : AgentConfig) :
    (execute_query_node runQuery c).attempts_remaining = c.attempts_remaining ∧
    (execute_query_node runQuery c).genCount = c.genCount ∧
    (execute_query_node runQuery c).fixCount = c.fixCount := by
  simp only [execute_query_node]
  repeat' split
  all_goals exact ⟨rfl, rfl, rfl⟩

theorem should_retry_attempts {c : AgentConfig} (h : should_retry c = true) :
    c.attempts_remaining > 0 := by
  simp [should_retry] at h
  exact h.2

theorem wfStep_preserves_inv (parse : String → Except String SqlExpr)
    (gen : Nat → Except String String) (runQuery : String → Option String)
    (c : AgentConfig) (h : wfInv c) : wfInv (wfStep parse gen runQuery c) := by
  obtain ⟨h1, h2, h3, h4⟩ := h
  cases hn : c.node
  case preprocess =>
    simp only [genCountInv, hn] at h4
    simp only [wfStep, hn]
    exact ⟨h1, h2, by intro hcon; simp at hcon, h4⟩
  case scopePolicy =>
    simp only [genCountInv, hn] at h4
    obtain ⟨hfa, hfg, hff⟩ := scope_policy_node_fields c
    simp only [wfStep, hn]
    split
    · exact ⟨by rw [hfa, hff]; exact h1, by rw [hff]; exact h2,
        by intro hcon; simp at hcon,
        by show _ ∧ _; rw [hfg, hff]; exact h4⟩
    · split
      · exact ⟨by rw [hfa, hff]; exact h1, by rw [hff]; exact h2,
          by intro hcon; simp at hcon,
          by show _ ∨ _; rw [hfg, hff]; exact Or.inr h4⟩
      · exact ⟨by rw [hfa, hff]; exact h1, by rw [hff]; exact h2,
          by intro hcon; simp at hcon,
          by show _ ∧ _; rw [hfg, hff]; exact h4⟩
  case clarify =>
    simp only [genCountInv, hn] at h4
    simp only [wfStep, hn]
    exact ⟨h1, h2, by intro hcon; simp at hcon, Or.inr h4⟩
  case schemaGround =>
    simp only [genCountInv, hn] at h4
    simp only [wfStep, hn]
    exact ⟨h1, h2, by intro hcon; simp at hcon, by show c.genCount = c.fixCount; omega⟩
  case generateSql =>
    simp only [genCountInv, hn] at h4
    obtain ⟨hfa, hfg, hff⟩ := generate_sql_node_fields gen c
    simp only [wfStep, hn]
    exact ⟨by rw [hfa, hff]; exact h1, by rw [hff]; exact h2,
      by intro hcon; simp at hcon,
      by show _ = _; rw [hfg, hff]; omega⟩
  case validateNode =>
    simp only [genCountInv, hn] at h4
    obtain ⟨hfa, hfg, hff⟩ := validate_sql_node_fields parse c
    simp only [wfStep, hn]
    split
    · next hr =>
      have hpos : (validate_sql_node parse c).attempts_remaining > 0 :=
        should_retry_attempts hr
      exact ⟨by rw [hfa, hff]; exact h1, by rw [hff]; exact h2,
        by intro hcon; exact hpos,
        by show _ = _; rw [hfg, hff]; omega⟩
    · exact ⟨by rw [hfa, hff]; exact h1, by rw [hff]; exact h2,
        by intro hcon; simp at hcon,
        by show _ = _; rw [hfg, hff]; omega⟩
  case fixRetry =>
    simp only [genCountInv, hn] at h4
    have hpos := h3 hn
    simp only [wfStep, hn]
    refine ⟨?_, ?_, by intro hcon; simp at hcon, ?_⟩
    · show c.attempts_remaining - 1 = 3 - ((c.fixCount + 1 : Nat) : Int)
      omega
    · show c.fixCount + 1 ≤ 3
      omega
    · show c.genCount = c.fixCount + 1
      omega
  case executeNode =>
    simp only [genCountInv, hn] at h4
    obtain ⟨hfa, hfg, hff⟩ := execute_query_node_fields runQuery c
    simp only [wfStep, hn]
    split
    · next hr =>
      have hpos : (execute_query_node runQuery c).attempts_remaining > 0 :=
        should_retry_attempts hr
      exact ⟨by rw [hfa, hff]; exact h1, by rw [hff]; exact h2,
        by intro hcon; exact hpos,
        by show _ = _; rw [hfg, hff]; omega⟩
    · exact ⟨by rw [hfa, hff]; exact h1, by rw [hff]; exact h2,
        by intro hcon; simp at hcon,
        by show _ ∨ _; rw [hfg, hff]; exact Or.inl h4⟩
  case finalizeNode =>
    simp only [genCountInv, hn] at h4
    simp only [wfStep, hn]
    exact ⟨h1, h2, by intro hcon; simp at hcon, h4⟩
  case done =>
    simp only [wfStep, hn]
    exact ⟨h1, h2, h3, h4⟩

theorem wfStep_measure (parse : String → Except String SqlExpr)
    (gen : Nat → Except String String) (runQuery : String → Option String)
    (c : AgentConfig) (h : wfInv c) (hne : c.node ≠ .done) :
    wfMeasure (wfStep parse gen runQuery c) < wfMeasure c := by
  obtain ⟨h1, h2, h3, h4⟩ := h
  cases hn : c.node
  case preprocess =>
    simp only [wfStep, hn, wfMeasure, nodeRank, preprocess_node]
    omega
  case scopePolicy =>
    obtain ⟨hfa, hfg, hff⟩ := scope_policy_node_fields c
    simp only [wfStep, hn, wfMeasure, hfa]
    split <;> (try split) <;> simp [nodeRank]
  case clarify =>
    simp only [wfStep, hn, wfMeasure, nodeRank]
    omega
  case schemaGround =>
    simp only [wfStep, hn, wfMeasure, nodeRank]
    omega
  case generateSql =>
    obtain ⟨hfa, hfg, hff⟩ := generate_sql_node_fields gen c
    simp only [wfStep, hn, wfMeasure, hfa, nodeRank]
    omega
  case validateNode =>
    obtain ⟨hfa, hfg, hff⟩ := validate_sql_node_fields parse c
    simp only [wfStep, hn, wfMeasure, hfa]
    split <;> simp [nodeRank]
  case fixRetry =>
    have hpos := h3 hn
    simp only [wfStep, hn, wfMeasure, fix_retry_node, nodeRank]
    omega
  case executeNode =>
    obtain ⟨hfa, hfg, hff⟩ := execute_query_node_fields runQuery c
    simp only [wfStep, hn, wfMeasure, hfa]
    split <;> simp [nodeRank]
  case finalizeNode =>
    simp only [wfStep, hn, wfMeasure, nodeRank]
    omega
  case done => exact absurd hn hne

theorem wfStep_done {parse : String → Except String SqlExpr}
    {gen : Nat → Except String String} {runQuery : String → Option String}
    {c : AgentConfig} (h : c.node = .done) : wfStep parse gen runQuery c = c := by
  simp [wfStep, h]

theorem wfRun_done_fix (parse : String → Except String SqlExpr)
    (gen : Nat → Except String String) (runQuery : String → Option String)
    (f : Nat) (c : AgentConfig) (h : c.node = .done) :
    wfRun parse gen runQuery f c = c := by
  induction f with
  | zero => rfl
  | succ f ih => rw [wfRun, wfStep_done h]; exact ih

theorem wfRun_reaches_done (parse : String → Except String SqlExpr)
    (gen : Nat → Except String String) (runQuery : String → Option String) :
    ∀ (f : Nat) (c : AgentConfig), wfInv c → wfMeasure c < f →
      (wfRun parse gen runQuery f c).node = .done ∧ wfInv (wfRun parse gen runQuery f c) := by
  intro f
  induction f with
  | zero => intro c _ hm; omega
  | succ f ih =>
    intro c hI hm
    by_cases hd : c.node = .done
    · rw [wfRun, wfStep_done hd, wfRun_done_fix parse gen runQuery f c hd]
      exact ⟨hd, hI⟩
    · rw [wfRun]
      exact ih (wfStep parse gen runQuery c) (wfStep_preserves_inv parse gen runQuery c hI)
        (by have := wfStep_measure parse gen runQuery c hI hd; omega)

/-- **C1** (code_bug evidence): a complete run of the agent workflow in which
the generator persistently proposes `SELECT id FROM audit_log`.  Validation
reports errors on every attempt, the retry budget is exhausted — and then the
conditional edge after `validate_sql` routes to the execute node, which
passes the never-validated candidate to `execute_query`.  The trace shows
`execute_query` was invoked with exactly this string, for which
`validate_sql_complete` reports a blocked-table violation. -/
theorem c1_unvalidated_sql_reaches_execution :
    (run_agent parseOne genBlockedTable (fun _ => none)
        "What were total sales by territory last month?").executedSql
      = ["SELECT id FROM audit_log"] ∧
    (validate_sql_complete parseOne "SELECT id FROM audit_log").1 = false ∧
    (run_agent parseOne genBlockedTable (fun _ => none)
        "What were total sales by territory last month?").node = .done :=
  ⟨rfl, rfl, rfl⟩

/-- **C5** (counterexample): the same persistently-failing run performs four
generate–validate cycles — the first generation plus three retries — so the
claim's bound of "at most 3 attempts in total, including the first
generation" is violated. -/
theorem c5_counterexample_four_attempts :
    (run_agent parseOne genBlockedTable (fun _ => none)
        "What were total sales by territory last month?").genCount = 4 ∧
    (run_agent parseOne genBlockedTable (fun _ => none)
        "What were total sales by territory last month?").fixCount = 3 :=
  ⟨rfl, rfl⟩

/-- **C5** (amended): for every parser, generator and execution oracle and
every question, the workflow terminates (reaches the `done` node within the
64-transition budget), decrements the shared retry budget at most 3 times,
performs exactly one generation more than it performs fix-retry decrements
(once per full generate–validate-or-execute cycle; zero generations when the
request is refused or ambiguous), and hence performs at most 4
generate–validate-or-execute attempts in total, including the first
generation. -/
theorem c5_amended_retry_bounded_terminates (parse : String → Except String SqlExpr)
    (gen : Nat → Except String String) (runQuery : String → Option String) (q : String) :
    (run_agent parse gen runQuery q).node = .done ∧
    (run_agent parse gen runQuery q).fixCount ≤ 3 ∧
    ((run_agent parse gen runQuery q).genCount = (run_agent parse gen runQuery q).fixCount + 1 ∨
      ((run_agent parse gen runQuery q).genCount = 0 ∧
        (run_agent parse gen runQuery q).fixCount = 0)) ∧
    (run_agent parse gen runQuery q).genCount ≤ 4 := by
  simp only [run_agent]
  have hI : wfInv (initialConfig q) :=
    ⟨rfl, by show (0 : Nat) ≤ 3; decide, by intro hcon; simp [initialConfig] at hcon, ⟨rfl, rfl⟩⟩
  have hm : wfMeasure (initialConfig q) < 64 := by
    show 10 * (3 : Int).toNat + 9 < 64
    decide
  obtain ⟨hdone, hInv⟩ := wfRun_reaches_done parse gen runQuery 64 (initialConfig q) hI hm
  obtain ⟨h1, h2, h3, h4⟩ := hInv
  have h4' : (wfRun parse gen runQuery 64 (initialConfig q)).genCount
      = (wfRun parse gen runQuery 64 (initialConfig q)).fixCount + 1 ∨
      ((wfRun parse gen runQuery 64 (initialConfig q)).genCount = 0 ∧
        (wfRun parse gen runQuery 64 (initialConfig q)).fixCount = 0) := by
    simpa [genCountInv, hdone] using h4
  refine ⟨hdone, h2, h4', ?_⟩
  rcases h4' with h | ⟨h, h'⟩ <;> omega
